import Mathlib

/-!
Verification of the `openlog` Logger (`src/openlog/logger.py`).

The Logger is embedded shallowly: Python lists become Lean lists, Python
strings become Lean `String`s, the wall clock becomes explicit `PyDateTime`
arguments (one per `datetime.now()` call site), and file-system effects are
recorded as an explicit list of `FileEvent`s.  `self.prefix` is rendered as
the field `pfx` because `prefix` is a reserved word in Lean.
-/

namespace Openlog

/-- Model of Python's `str.split(sep)` for a one-character separator:
splits on every occurrence, keeping empty pieces, and always returns a
non-empty list (Python: `"".split(".") == [""]`). -/
def pySplit (sep : Char) : List Char → List (List Char)
  | [] => [[]]
  | c :: cs =>
    if c = sep then [] :: pySplit sep cs
    else
      match pySplit sep cs with
      | [] => [[c]]
      | t :: ts => (c :: t) :: ts

/-- A decimal digit character; `dchar r` renders the decimal digit `r % 10`,
as Python's zero-padded `datetime` rendering does for each digit position. -/
def dchar (r : Nat) : Char := Nat.digitChar (r % 10)

/-- A wall-clock reading, as held by a Python `datetime` object. -/
structure PyDateTime where
  year : Nat
  month : Nat
  day : Nat
  hour : Nat
  minute : Nat
  second : Nat
  microsecond : Nat
deriving DecidableEq, Repr

/-- The ranges Python's `datetime` guarantees for a real clock reading. -/
def PyDateTime.Valid (d : PyDateTime) : Prop :=
  1 ≤ d.year ∧ d.year ≤ 9999 ∧ 1 ≤ d.month ∧ d.month ≤ 12 ∧
  1 ≤ d.day ∧ d.day ≤ 31 ∧ d.hour < 24 ∧ d.minute < 60 ∧
  d.second < 60 ∧ d.microsecond < 1000000

instance (d : PyDateTime) : Decidable d.Valid := by
  unfold PyDateTime.Valid
  infer_instance

/-- Two-digit zero-padded rendering (`%02d` for values below 100). -/
def pad2 (n : Nat) : List Char := [dchar (n / 10), dchar n]

/-- Four-digit zero-padded rendering (`%04d` for values below 10000). -/
def pad4 (n : Nat) : List Char :=
  [dchar (n / 1000), dchar (n / 100), dchar (n / 10), dchar n]

/-- Six-digit zero-padded rendering (`%06d` for values below 1000000). -/
def pad6 (n : Nat) : List Char :=
  [dchar (n / 100000), dchar (n / 10000), dchar (n / 1000),
   dchar (n / 100), dchar (n / 10), dchar n]

/-- The characters of Python's `str(datetime_value)`:
`YYYY-MM-DD HH:MM:SS[.ffffff]`, where the fractional part is omitted
when the microsecond field is zero. -/
def pyDatetimeChars (d : PyDateTime) : List Char :=
  pad4 d.year ++ '-' :: pad2 d.month ++ '-' :: pad2 d.day ++
    ' ' :: pad2 d.hour ++ ':' :: pad2 d.minute ++ ':' :: pad2 d.second ++
    (if d.microsecond = 0 then [] else '.' :: pad6 d.microsecond)

/-- Python's `str(datetime.now())` as a `String`. -/
def pyDatetimeStr (d : PyDateTime) : String := ⟨pyDatetimeChars d⟩

/-- `Logger._make_timestamp_string` (logger.py lines 84-97), applied to the
clock reading `d` taken inside it:
`timestamp = str(datetime.now()).split(".")[0]`, then with
`short_timestamp` the time part after the space is cut to `HH:MM`. -/
def makeTimestampChars (short_timestamp : Bool) (d : PyDateTime) : List Char :=
  let timestamp := (pySplit '.' (pyDatetimeChars d)).headI
  if short_timestamp then
    let time_part := (pySplit ' ' timestamp).getD 1 []
    List.intercalate [':'] ((pySplit ':' time_part).take 2)
  else
    timestamp

/-- `Logger._make_timestamp_string` as a `String`. -/
def makeTimestampString (short_timestamp : Bool) (d : PyDateTime) : String :=
  ⟨makeTimestampChars short_timestamp d⟩

/-- `'HH:MM'`: two digits, a colon, two digits. -/
def isHHMM (s : String) : Bool :=
  match s.data with
  | [h1, h2, c, m1, m2] =>
    h1.isDigit && h2.isDigit && (c == ':') && m1.isDigit && m2.isDigit
  | _ => false

/-- `'YYYY-MM-DD HH:MM:SS'`: the full 19-character timestamp pattern. -/
def isFullTS (s : String) : Bool :=
  match s.data with
  | [y1, y2, y3, y4, a, mo1, mo2, b, d1, d2, c, h1, h2, e, mi1, mi2, f, s1, s2] =>
    y1.isDigit && y2.isDigit && y3.isDigit && y4.isDigit && (a == '-') &&
    mo1.isDigit && mo2.isDigit && (b == '-') && d1.isDigit && d2.isDigit &&
    (c == ' ') && h1.isDigit && h2.isDigit && (e == ':') &&
    mi1.isDigit && mi2.isDigit && (f == ':') && s1.isDigit && s2.isDigit
  | _ => false

section TimestampLemmas

theorem dchar_spec : ∀ r < 10, (Nat.digitChar r).isDigit = true ∧
    Nat.digitChar r ≠ '.' ∧ Nat.digitChar r ≠ ' ' ∧ Nat.digitChar r ≠ ':' := by
  decide

theorem dchar_isDigit (r : Nat) : (dchar r).isDigit = true :=
  (dchar_spec (r % 10) (Nat.mod_lt r (by norm_num))).1

theorem dchar_ne_dot (r : Nat) : dchar r ≠ '.' :=
  (dchar_spec (r % 10) (Nat.mod_lt r (by norm_num))).2.1

theorem dchar_ne_space (r : Nat) : dchar r ≠ ' ' :=
  (dchar_spec (r % 10) (Nat.mod_lt r (by norm_num))).2.2.1

theorem dchar_ne_colon (r : Nat) : dchar r ≠ ':' :=
  (dchar_spec (r % 10) (Nat.mod_lt r (by norm_num))).2.2.2

theorem pySplit_of_not_mem {sep : Char} {xs : List Char} (h : sep ∉ xs) :
    pySplit sep xs = [xs] := by
  induction xs with
  | nil => rfl
  | cons c cs ih =>
    have hc : c ≠ sep := fun hc => h (hc ▸ List.mem_cons_self c cs)
    have hcs : sep ∉ cs := fun hm => h (List.mem_cons_of_mem c hm)
    simp [pySplit, hc, ih hcs]

theorem pySplit_append {sep : Char} {xs ys : List Char} (h : sep ∉ xs) :
    pySplit sep (xs ++ sep :: ys) = xs :: pySplit sep ys := by
  induction xs with
  | nil => simp [pySplit]
  | cons c cs ih =>
    have hc : c ≠ sep := fun hc => h (hc ▸ List.mem_cons_self c cs)
    have hcs : sep ∉ cs := fun hm => h (List.mem_cons_of_mem c hm)
    simp only [List.cons_append, pySplit, if_neg hc, List.append_eq, ih hcs]

theorem not_mem_pad2 {c : Char} (hc : ∀ r, dchar r ≠ c) (n : Nat) : c ∉ pad2 n := by
  intro h
  simp only [pad2, List.mem_cons, List.not_mem_nil, or_false] at h
  rcases h with h | h <;> exact hc _ h.symm

theorem not_mem_pad4 {c : Char} (hc : ∀ r, dchar r ≠ c) (n : Nat) : c ∉ pad4 n := by
  intro h
  simp only [pad4, List.mem_cons, List.not_mem_nil, or_false] at h
  rcases h with h | h | h | h <;> exact hc _ h.symm

theorem not_mem_pad6 {c : Char} (hc : ∀ r, dchar r ≠ c) (n : Nat) : c ∉ pad6 n := by
  intro h
  simp only [pad6, List.mem_cons, List.not_mem_nil, or_false] at h
  rcases h with h | h | h | h | h | h <;> exact hc _ h.symm

/-- The `YYYY-MM-DD` part of `str(datetime_value)`. -/
def dateChars (d : PyDateTime) : List Char :=
  pad4 d.year ++ '-' :: pad2 d.month ++ '-' :: pad2 d.day

/-- The `HH:MM:SS` part of `str(datetime_value)`. -/
def timeChars (d : PyDateTime) : List Char :=
  pad2 d.hour ++ ':' :: pad2 d.minute ++ ':' :: pad2 d.second

/-- The `YYYY-MM-DD HH:MM:SS` part of `str(datetime_value)`, i.e. the
string with its sub-second part cut off. -/
def mainChars (d : PyDateTime) : List Char :=
  dateChars d ++ ' ' :: timeChars d

theorem pyDatetimeChars_eq (d : PyDateTime) :
    pyDatetimeChars d =
      mainChars d ++ (if d.microsecond = 0 then [] else '.' :: pad6 d.microsecond) := by
  simp [pyDatetimeChars, mainChars, dateChars, timeChars, List.append_assoc]

theorem nm_append {c : Char} {l l' : List Char} (h1 : c ∉ l) (h2 : c ∉ l') :
    c ∉ l ++ l' := by
  intro h
  rcases List.mem_append.mp h with h | h
  exacts [h1 h, h2 h]

theorem nm_cons {c x : Char} {l : List Char} (h1 : c ≠ x) (h2 : c ∉ l) :
    c ∉ x :: l := by
  intro h
  rcases List.mem_cons.mp h with h | h
  exacts [h1 h, h2 h]

theorem dot_not_mem_date (d : PyDateTime) : '.' ∉ dateChars d := by
  simp only [dateChars]
  exact nm_append
    (nm_append (not_mem_pad4 dchar_ne_dot _)
      (nm_cons (by decide) (not_mem_pad2 dchar_ne_dot _)))
    (nm_cons (by decide) (not_mem_pad2 dchar_ne_dot _))

theorem dot_not_mem_time (d : PyDateTime) : '.' ∉ timeChars d := by
  simp only [timeChars]
  exact nm_append
    (nm_append (not_mem_pad2 dchar_ne_dot _)
      (nm_cons (by decide) (not_mem_pad2 dchar_ne_dot _)))
    (nm_cons (by decide) (not_mem_pad2 dchar_ne_dot _))

theorem dot_not_mem_main (d : PyDateTime) : '.' ∉ mainChars d := by
  simp only [mainChars]
  exact nm_append (dot_not_mem_date d) (nm_cons (by decide) (dot_not_mem_time d))

theorem space_not_mem_date (d : PyDateTime) : ' ' ∉ dateChars d := by
  simp only [dateChars]
  exact nm_append
    (nm_append (not_mem_pad4 dchar_ne_space _)
      (nm_cons (by decide) (not_mem_pad2 dchar_ne_space _)))
    (nm_cons (by decide) (not_mem_pad2 dchar_ne_space _))

theorem space_not_mem_time (d : PyDateTime) : ' ' ∉ timeChars d := by
  simp only [timeChars]
  exact nm_append
    (nm_append (not_mem_pad2 dchar_ne_space _)
      (nm_cons (by decide) (not_mem_pad2 dchar_ne_space _)))
    (nm_cons (by decide) (not_mem_pad2 dchar_ne_space _))

theorem split_dot_headI (d : PyDateTime) :
    (pySplit '.' (pyDatetimeChars d)).headI = mainChars d := by
  rw [pyDatetimeChars_eq]
  by_cases hm : d.microsecond = 0
  · rw [if_pos hm, List.append_nil, pySplit_of_not_mem (dot_not_mem_main d)]
    rfl
  · rw [if_neg hm, pySplit_append (dot_not_mem_main d)]
    rfl

theorem makeTimestampChars_false (d : PyDateTime) :
    makeTimestampChars false d = mainChars d := by
  simp [makeTimestampChars, split_dot_headI]

theorem split_space_main (d : PyDateTime) :
    pySplit ' ' (mainChars d) = [dateChars d, timeChars d] := by
  rw [mainChars, pySplit_append (space_not_mem_date d),
    pySplit_of_not_mem (space_not_mem_time d)]

theorem split_colon_time (d : PyDateTime) :
    pySplit ':' (timeChars d) = [pad2 d.hour, pad2 d.minute, pad2 d.second] := by
  have h1 : timeChars d = pad2 d.hour ++ ':' :: (pad2 d.minute ++ ':' :: pad2 d.second) := by
    simp [timeChars, List.append_assoc]
  rw [h1, pySplit_append (not_mem_pad2 dchar_ne_colon _),
    pySplit_append (not_mem_pad2 dchar_ne_colon _),
    pySplit_of_not_mem (not_mem_pad2 dchar_ne_colon _)]

theorem makeTimestampChars_true (d : PyDateTime) :
    makeTimestampChars true d = pad2 d.hour ++ ':' :: pad2 d.minute := by
  simp only [makeTimestampChars, split_dot_headI, if_true]
  rw [split_space_main]
  show List.intercalate [':'] ((pySplit ':' (timeChars d)).take 2) = _
  rw [split_colon_time]
  show List.intercalate [':'] [pad2 d.hour, pad2 d.minute] = _
  simp [List.intercalate, List.intersperse]

theorem isHHMM_short (d : PyDateTime) :
    isHHMM (makeTimestampString true d) = true := by
  simp [isHHMM, makeTimestampString, makeTimestampChars_true, pad2, dchar_isDigit]

theorem isFullTS_full (d : PyDateTime) :
    isFullTS (makeTimestampString false d) = true := by
  simp [isFullTS, makeTimestampString, makeTimestampChars_false, mainChars, dateChars,
    timeChars, pad4, pad2, dchar_isDigit]

end TimestampLemmas

/-- A file-system action performed by the Logger.  The Logger opens, writes
and closes on every write, so each write is one event. -/
inductive FileEvent where
  /-- `os.mkdir(cwd + "/logs")` (logger.py line 48). -/
  | mkdirLogs (path : String)
  /-- open in mode `"w+"` (truncate), write `content`, close (lines 65-69). -/
  | writeTrunc (path : String) (content : String)
  /-- open in mode `"a+"` (append), write `content`, close (lines 119-121). -/
  | writeAppend (path : String) (content : String)
deriving DecidableEq, Repr

/-- The mutable state of a `Logger` object.  `self.prefix` is the field
`pfx` (`prefix` is reserved in Lean); the other names follow the source. -/
structure LoggerState where
  write_to_file : Bool
  pfx : String
  short_timestamp : Bool
  log_file_path : String
  log_list : List String
  log_list_to_send : List String
deriving DecidableEq, Repr

/-- `str(datetime.now()).replace(" ", "_").replace(":", "-")`, the session
filename stamp (logger.py line 56).  Single-character `str.replace` is a
character map. -/
def sessionStamp (d : PyDateTime) : String :=
  ⟨(pyDatetimeChars d).map (fun c => if c = ' ' then '_' else c)
    |>.map (fun c => if c = ':' then '-' else c)⟩

/-- The separator line written at construction (logger.py lines 66-68),
rendered from the clock reading taken inside that write. -/
def headerLine (short_timestamp : Bool) (d : PyDateTime) : String :=
  "-----------------------" ++ makeTimestampString short_timestamp d ++
    "-----------------------\n"

/-- Result of `Logger.__init__`: the fresh state plus the file events it
performed. -/
structure InitOut where
  state : LoggerState
  events : List FileEvent
deriving DecidableEq, Repr

/-- `Logger.__init__` (logger.py lines 17-69).  `cwd` is `os.getcwd()`,
`t_path` the clock at the session-filename read (line 56), `t_header` the
clock at the header write (line 67), and `logs_dir_exists` the result of
`os.path.isdir(cwd + "/logs")` (line 46). -/
def pyInit (cwd : String) (t_path t_header : PyDateTime)
    (write_to_file in_dir session : Bool) (pfx : String)
    (short_timestamp : Bool) (logs_dir_exists : Bool) : InitOut :=
  let path_pfx : String := if in_dir then "/logs" else ""
  let dir_events :=
    if in_dir ∧ ¬logs_dir_exists ∧ write_to_file then
      [FileEvent.mkdirLogs (cwd ++ "/logs")]
    else []
  let log_file_path :=
    if session then cwd ++ path_pfx ++ "/log_" ++ sessionStamp t_path ++ ".txt"
    else cwd ++ path_pfx ++ "/log.txt"
  { state :=
      { write_to_file := write_to_file
        pfx := pfx
        short_timestamp := short_timestamp
        log_file_path := log_file_path
        log_list := []
        log_list_to_send := [] }
    events :=
      dir_events ++
        (if write_to_file then
          [FileEvent.writeTrunc log_file_path (headerLine short_timestamp t_header)]
        else []) }

/-- The plain-text line `_echo` builds when `write_to_file` is set
(logger.py lines 114-117): Python's `if self.prefix:` is false exactly for
the empty string. -/
def bareLogString (pfx : String) (short_timestamp : Bool) (t : PyDateTime)
    (msg m_type : String) : String :=
  if pfx = "" then
    "[" ++ makeTimestampString short_timestamp t ++ "]::" ++ m_type ++ "::" ++ msg ++ "\n"
  else
    "[" ++ makeTimestampString short_timestamp t ++ "]::[" ++ pfx ++ "]::" ++
      m_type ++ "::" ++ msg ++ "\n"

/-- The per-level Rich style string (logger.py lines 126-135). -/
def colorCode (m_type : String) : String :=
  if m_type = "INFO" then "blue bold"
  else if m_type = "ERROR" then "red bold"
  else if m_type = "WARN" then "yellow bold"
  else if m_type = "INIT" then "purple bold"
  else "white bold"

/-- The console line of `_echo` (logger.py lines 137-144), cut into
segments: a `true` flag marks a Rich styling-markup token inserted by the
code, a `false` flag marks textual content.  Concatenating every segment
gives exactly the markup string the code passes to `Console.print`. -/
def consoleSegments (ts pfx color m_type msg : String) : List (Bool × String) :=
  [(true, "[gray]"), (false, "[" ++ ts ++ "]"), (true, "[/]"),
   (true, "[red bold]"), (false, "::"), (true, "[/]")] ++
  (if pfx = "" then []
   else
     [(true, "[green bold]"), (false, "[" ++ pfx ++ "]"), (true, "[/]"),
      (true, "[red bold]"), (false, "::"), (true, "[/]")]) ++
  [(true, "[" ++ color ++ "]"), (false, m_type), (true, "[/]"),
   (true, "[red bold]"), (false, "::"), (true, "[/]"), (false, msg)]

/-- Concatenation of all segments: the exact markup string printed. -/
def segsConcat : List (Bool × String) → String
  | [] => ""
  | p :: rest => p.2 ++ segsConcat rest

/-- Concatenation of the non-markup segments: the console line with the
styling markup stripped. -/
def segsText : List (Bool × String) → String
  | [] => ""
  | p :: rest => if p.1 then segsText rest else p.2 ++ segsText rest

/-- The markup line `_echo` hands to `Console.print`. -/
def consoleMarkupLine (ts pfx color m_type msg : String) : String :=
  segsConcat (consoleSegments ts pfx color m_type msg)

/-- The console line's textual content once the styling markup is
stripped. -/
def consoleTextLine (ts pfx color m_type msg : String) : String :=
  segsText (consoleSegments ts pfx color m_type msg)

/-- Result of one `_echo` call. -/
structure EchoOut where
  state : LoggerState
  events : List FileEvent
  console : String
deriving DecidableEq, Repr

/-- `Logger._echo` (logger.py lines 99-144).  `t_file` is the clock at the
`_make_timestamp_string()` call of lines 115/117 (read only when
`write_to_file` is set) and `t_console` the clock at the separate
`_make_timestamp_string()` call of lines 139/143. -/
def pyEcho (s : LoggerState) (t_file t_console : PyDateTime)
    (msg m_type : String) : EchoOut :=
  let line := bareLogString s.pfx s.short_timestamp t_file msg m_type
  { state :=
      if s.write_to_file then
        { s with
          log_list := s.log_list ++ [line]
          log_list_to_send := s.log_list_to_send ++ [line] }
      else s
    events :=
      if s.write_to_file then [FileEvent.writeAppend s.log_file_path line] else []
    console :=
      consoleMarkupLine (makeTimestampString s.short_timestamp t_console)
        s.pfx (colorCode m_type) m_type msg }

/-- Result of one `flush_logs` call. -/
structure FlushOut where
  state : LoggerState
  ret : List String
deriving DecidableEq, Repr

/-- `Logger.flush_logs` (logger.py lines 194-210): with `from_start` the
pending list is first replaced by the full list; the pending list is then
copied, reset to empty, and the copy returned. -/
def pyFlush (s : LoggerState) (from_start : Bool) : FlushOut :=
  let pending := if from_start then s.log_list else s.log_list_to_send
  { state := { s with log_list_to_send := [] }
    ret := pending }

/-- The four leveled entry points `log`/`error`/`warn`/`init`
(logger.py lines 146-192). -/
inductive Level where
  | info
  | error
  | warn
  | init
deriving DecidableEq, Repr

/-- The fixed tag each leveled method passes to `_echo`. -/
def levelTag : Level → String
  | .info => "INFO"
  | .error => "ERROR"
  | .warn => "WARN"
  | .init => "INIT"

/-- One public call on a live Logger: a leveled call (with the two clock
readings its `_echo` takes) or a flush. -/
inductive Op where
  | emit (t_file t_console : PyDateTime) (msg : String) (lvl : Level)
  | flush (from_start : Bool)
deriving DecidableEq, Repr

/-- Step result: successor state, file events, and the returned list when
the operation was a flush. -/
structure StepOut where
  state : LoggerState
  events : List FileEvent
  flushed : Option (List String)
deriving DecidableEq, Repr

/-- One operation on the Logger. -/
def stepOp (s : LoggerState) : Op → StepOut
  | .emit t1 t2 msg lvl =>
    let e := pyEcho s t1 t2 msg (levelTag lvl)
    { state := e.state, events := e.events, flushed := none }
  | .flush b =>
    let f := pyFlush s b
    { state := f.state, events := [], flushed := some f.ret }

/-- Result of a whole call sequence: final state, every file event, and the
list returned by each flush call, in order. -/
structure RunOut where
  state : LoggerState
  events : List FileEvent
  flushed : List (List String)
deriving DecidableEq, Repr

/-- Run a sequence of public calls. -/
def runOps (s : LoggerState) : List Op → RunOut
  | [] => { state := s, events := [], flushed := [] }
  | op :: rest =>
    let so := stepOp s op
    let r := runOps so.state rest
    { state := r.state
      events := so.events ++ r.events
      flushed :=
        match so.flushed with
        | none => r.flushed
        | some o => o :: r.flushed }

/-- The formatted lines a single operation appends to `log_list`
(none unless it is an emit and `write_to_file` is set). -/
def opLines (write_to_file : Bool) (pfx : String) (short_timestamp : Bool) :
    Op → List String
  | .emit t1 _ msg lvl =>
    if write_to_file then [bareLogString pfx short_timestamp t1 msg (levelTag lvl)] else []
  | .flush _ => []

/-- All formatted lines a call sequence appends to `log_list`, in order. -/
def appendedLines (write_to_file : Bool) (pfx : String) (short_timestamp : Bool)
    (ops : List Op) : List String :=
  (ops.map (opLines write_to_file pfx short_timestamp)).flatten

/-- The lines appended since the last flush: emits accumulate, any flush
clears.  Started from `p`, the pending list carried into the sequence. -/
def pendingAfter (write_to_file : Bool) (pfx : String) (short_timestamp : Bool)
    (p : List String) : List Op → List String
  | [] => p
  | .emit t1 _ msg lvl :: rest =>
    pendingAfter write_to_file pfx short_timestamp
      (p ++ (if write_to_file then [bareLogString pfx short_timestamp t1 msg (levelTag lvl)] else []))
      rest
  | .flush _ :: rest => pendingAfter write_to_file pfx short_timestamp [] rest

/-- Effect of one file event on a file-system snapshot mapping a path to
its content: `"w+"` truncates, `"a+"` appends, `mkdir` leaves contents. -/
def applyEvent (fs : String → String) : FileEvent → (String → String)
  | .mkdirLogs _ => fs
  | .writeTrunc p c => fun q => if q = p then c else fs q
  | .writeAppend p c => fun q => if q = p then fs q ++ c else fs q

/-- Effect of a sequence of file events on a file-system snapshot. -/
def applyEvents (fs : String → String) : List FileEvent → (String → String)
  | [] => fs
  | e :: rest => applyEvents (applyEvent fs e) rest

/-- A string that is the plain-text line of some leveled call. -/
def IsEmitLine (pfx : String) (short_timestamp : Bool) (x : String) : Prop :=
  ∃ t msg lvl, x = bareLogString pfx short_timestamp t msg (levelTag lvl)

section RunLemmas

theorem str_ext {a b : String} (h : a.data = b.data) : a = b := by
  cases a
  cases b
  exact congrArg String.mk h

theorem data_append (a b : String) : (a ++ b).data = a.data ++ b.data := rfl

@[simp]
theorem stepOp_write_to_file (s : LoggerState) (op : Op) :
    (stepOp s op).state.write_to_file = s.write_to_file := by
  cases op <;> simp only [stepOp, pyEcho, pyFlush]
  split <;> rfl

@[simp]
theorem stepOp_pfx (s : LoggerState) (op : Op) :
    (stepOp s op).state.pfx = s.pfx := by
  cases op <;> simp only [stepOp, pyEcho, pyFlush]
  split <;> rfl

@[simp]
theorem stepOp_short_timestamp (s : LoggerState) (op : Op) :
    (stepOp s op).state.short_timestamp = s.short_timestamp := by
  cases op <;> simp only [stepOp, pyEcho, pyFlush]
  split <;> rfl

@[simp]
theorem stepOp_log_file_path (s : LoggerState) (op : Op) :
    (stepOp s op).state.log_file_path = s.log_file_path := by
  cases op <;> simp only [stepOp, pyEcho, pyFlush]
  split <;> rfl

theorem runOps_log_list (ops : List Op) : ∀ s : LoggerState,
    (runOps s ops).state.log_list =
      s.log_list ++ appendedLines s.write_to_file s.pfx s.short_timestamp ops := by
  induction ops with
  | nil =>
    intro s
    simp [runOps, appendedLines]
  | cons op rest ih =>
    intro s
    cases op with
    | emit t1 t2 msg lvl =>
      show (runOps (stepOp s (.emit t1 t2 msg lvl)).state rest).state.log_list = _
      rw [ih]
      by_cases h : s.write_to_file = true <;>
        simp [stepOp, pyEcho, h, appendedLines, opLines, List.append_assoc]
    | flush b =>
      show (runOps (stepOp s (.flush b)).state rest).state.log_list = _
      rw [ih]
      simp [stepOp, pyFlush, appendedLines, opLines]

theorem runOps_pending (ops : List Op) : ∀ s : LoggerState,
    (runOps s ops).state.log_list_to_send =
      pendingAfter s.write_to_file s.pfx s.short_timestamp s.log_list_to_send ops := by
  induction ops with
  | nil =>
    intro s
    simp [runOps, pendingAfter]
  | cons op rest ih =>
    intro s
    cases op with
    | emit t1 t2 msg lvl =>
      show (runOps (stepOp s (.emit t1 t2 msg lvl)).state rest).state.log_list_to_send = _
      rw [ih]
      by_cases h : s.write_to_file = true <;>
        simp [stepOp, pyEcho, h, pendingAfter]
    | flush b =>
      show (runOps (stepOp s (.flush b)).state rest).state.log_list_to_send = _
      rw [ih]
      simp [stepOp, pyFlush, pendingAfter]

theorem runOps_suffix (ops : List Op) : ∀ s : LoggerState,
    s.log_list_to_send <:+ s.log_list →
    (runOps s ops).state.log_list_to_send <:+ (runOps s ops).state.log_list := by
  induction ops with
  | nil =>
    intro s h
    exact h
  | cons op rest ih =>
    intro s h
    cases op with
    | emit t1 t2 msg lvl =>
      show (runOps (stepOp s (.emit t1 t2 msg lvl)).state rest).state.log_list_to_send <:+ _
      apply ih
      by_cases hw : s.write_to_file = true
      · obtain ⟨u, hu⟩ := h
        refine ⟨u, ?_⟩
        simp [stepOp, pyEcho, hw, ← List.append_assoc, hu]
      · simpa [stepOp, pyEcho, hw] using h
    | flush b =>
      show (runOps (stepOp s (.flush b)).state rest).state.log_list_to_send <:+ _
      apply ih
      simp [stepOp, pyFlush]

theorem runOps_no_file (ops : List Op) : ∀ s : LoggerState,
    s.write_to_file = false → s.log_list = [] → s.log_list_to_send = [] →
    (runOps s ops).events = [] ∧ (∀ o ∈ (runOps s ops).flushed, o = []) ∧
    (runOps s ops).state.log_list = [] ∧
    (runOps s ops).state.log_list_to_send = [] := by
  induction ops with
  | nil =>
    intro s hw h1 h2
    simp [runOps, h1, h2]
  | cons op rest ih =>
    intro s hw h1 h2
    cases op with
    | emit t1 t2 msg lvl =>
      have hstep : (stepOp s (.emit t1 t2 msg lvl)).state = s := by
        simp [stepOp, pyEcho, hw]
      have hev : (stepOp s (.emit t1 t2 msg lvl)).events = [] := by
        simp [stepOp, pyEcho, hw]
      have hfl : (stepOp s (.emit t1 t2 msg lvl)).flushed = none := by
        simp [stepOp, pyEcho]
      obtain ⟨e, f, l1, l2⟩ := ih (stepOp s (.emit t1 t2 msg lvl)).state
        (by rw [hstep]; exact hw) (by rw [hstep]; exact h1) (by rw [hstep]; exact h2)
      refine ⟨?_, ?_, l1, l2⟩
      · show (stepOp s _).events ++ (runOps (stepOp s _).state rest).events = []
        rw [hev, e]
        rfl
      · intro o ho
        apply f
        show o ∈ (runOps (stepOp s (.emit t1 t2 msg lvl)).state rest).flushed
        have : (runOps s (.emit t1 t2 msg lvl :: rest)).flushed =
            (runOps (stepOp s (.emit t1 t2 msg lvl)).state rest).flushed := by
          simp [runOps, hfl]
        rwa [this] at ho
    | flush b =>
      have hstep : (stepOp s (.flush b)).state = { s with log_list_to_send := [] } := rfl
      have hret : (stepOp s (.flush b)).flushed = some [] := by
        cases b <;> simp [stepOp, pyFlush, h1, h2]
      obtain ⟨e, f, l1, l2⟩ := ih (stepOp s (.flush b)).state
        (by rw [hstep]; exact hw) (by rw [hstep]; exact h1) (by rw [hstep])
      refine ⟨?_, ?_, l1, l2⟩
      · show (stepOp s _).events ++ (runOps (stepOp s _).state rest).events = []
        rw [e]
        rfl
      · intro o ho
        have : (runOps s (.flush b :: rest)).flushed =
            [] :: (runOps (stepOp s (.flush b)).state rest).flushed := by
          simp [runOps, hret]
        rw [this] at ho
        rcases List.mem_cons.mp ho with h | h
        · exact h
        · exact f o h

theorem runOps_emit_lines (pfx : String) (st : Bool) (ops : List Op) :
    ∀ s : LoggerState, s.pfx = pfx → s.short_timestamp = st →
    (∀ x ∈ s.log_list, IsEmitLine pfx st x) →
    (∀ x ∈ s.log_list_to_send, IsEmitLine pfx st x) →
    (∀ x ∈ (runOps s ops).state.log_list, IsEmitLine pfx st x) ∧
    (∀ x ∈ (runOps s ops).state.log_list_to_send, IsEmitLine pfx st x) ∧
    (∀ o ∈ (runOps s ops).flushed, ∀ x ∈ o, IsEmitLine pfx st x) := by
  induction ops with
  | nil =>
    intro s hp hst h1 h2
    refine ⟨h1, h2, ?_⟩
    intro o ho
    simp [runOps] at ho
  | cons op rest ih =>
    intro s hp hst h1 h2
    cases op with
    | emit t1 t2 msg lvl =>
      have hline : IsEmitLine pfx st (bareLogString s.pfx s.short_timestamp t1 msg (levelTag lvl)) := by
        refine ⟨t1, msg, lvl, ?_⟩
        rw [hp, hst]
      have h1' : ∀ x ∈ (stepOp s (.emit t1 t2 msg lvl)).state.log_list, IsEmitLine pfx st x := by
        intro x hx
        by_cases hw : s.write_to_file = true
        · simp only [stepOp, pyEcho, if_pos hw] at hx
          rcases List.mem_append.mp hx with hx | hx
          · exact h1 x hx
          · rw [List.mem_singleton.mp hx]
            exact hline
        · simp only [stepOp, pyEcho, if_neg hw] at hx
          exact h1 x hx
      have h2' : ∀ x ∈ (stepOp s (.emit t1 t2 msg lvl)).state.log_list_to_send, IsEmitLine pfx st x := by
        intro x hx
        by_cases hw : s.write_to_file = true
        · simp only [stepOp, pyEcho, if_pos hw] at hx
          rcases List.mem_append.mp hx with hx | hx
          · exact h2 x hx
          · rw [List.mem_singleton.mp hx]
            exact hline
        · simp only [stepOp, pyEcho, if_neg hw] at hx
          exact h2 x hx
      obtain ⟨c1, c2, c3⟩ := ih (stepOp s (.emit t1 t2 msg lvl)).state
        (by simp [hp]) (by simp [hst]) h1' h2'
      refine ⟨c1, c2, ?_⟩
      intro o ho
      apply c3
      have : (runOps s (.emit t1 t2 msg lvl :: rest)).flushed =
          (runOps (stepOp s (.emit t1 t2 msg lvl)).state rest).flushed := by
        simp [runOps, stepOp]
      rwa [this] at ho
    | flush b =>
      have hret : ∀ x ∈ (if b then s.log_list else s.log_list_to_send), IsEmitLine pfx st x := by
        cases b <;> simpa using by first | exact h2 | exact h1
      have h2' : ∀ x ∈ (stepOp s (.flush b)).state.log_list_to_send, IsEmitLine pfx st x := by
        intro x hx
        simp [stepOp, pyFlush] at hx
      obtain ⟨c1, c2, c3⟩ := ih (stepOp s (.flush b)).state
        (by simp [hp]) (by simp [hst]) h1 h2'
      refine ⟨c1, c2, ?_⟩
      intro o ho
      have : (runOps s (.flush b :: rest)).flushed =
          (if b then s.log_list else s.log_list_to_send) ::
            (runOps (stepOp s (.flush b)).state rest).flushed := by
        simp [runOps, stepOp, pyFlush]
      rw [this] at ho
      rcases List.mem_cons.mp ho with h | h
      · rw [h]
        exact hret
      · exact c3 o h

end RunLemmas

section StringFacts

theorem data_lbrack : ("[" : String).data = ['['] := rfl

theorem data_rbrack_sep : ("]::" : String).data = [']', ':', ':'] := rfl

theorem data_rbrack_sep_lbrack : ("]::[" : String).data = [']', ':', ':', '['] := rfl

theorem data_rbrack : ("]" : String).data = [']'] := rfl

theorem data_sep : ("::" : String).data = [':', ':'] := rfl

theorem data_newline : ("\n" : String).data = ['\n'] := rfl

theorem bare_head (pfx : String) (st : Bool) (t : PyDateTime) (msg m_type : String) :
    (bareLogString pfx st t msg m_type).data.head? = some '[' := by
  unfold bareLogString
  split <;> rfl

theorem header_head (st : Bool) (t : PyDateTime) :
    (headerLine st t).data.head? = some '-' := rfl

theorem header_ne_bare (st : Bool) (t : PyDateTime) (pfx : String) (st2 : Bool)
    (t2 : PyDateTime) (msg m_type : String) :
    headerLine st t ≠ bareLogString pfx st2 t2 msg m_type := by
  intro h
  have h2 := congrArg (fun x : String => x.data.head?) h
  simp only [] at h2
  rw [header_head, bare_head] at h2
  exact absurd h2 (by decide)

theorem consoleText_eq_bare (ts pfx color m_type msg : String) :
    consoleTextLine ts pfx color m_type msg ++ "\n" =
      (if pfx = "" then
        "[" ++ ts ++ "]::" ++ m_type ++ "::" ++ msg ++ "\n"
      else
        "[" ++ ts ++ "]::[" ++ pfx ++ "]::" ++ m_type ++ "::" ++ msg ++ "\n") := by
  by_cases hp : pfx = ""
  · rw [if_pos hp]
    apply str_ext
    simp [consoleTextLine, consoleSegments, segsText, hp, data_append, data_lbrack,
      data_rbrack_sep, data_rbrack, data_sep, data_newline, List.append_assoc]
  · rw [if_neg hp]
    apply str_ext
    simp [consoleTextLine, consoleSegments, segsText, hp, data_append, data_lbrack,
      data_rbrack_sep, data_rbrack_sep_lbrack, data_rbrack, data_sep, data_newline,
      List.append_assoc]

end StringFacts

/-!  The ten claims.  -/

/-- C1: with `writeToFile=true`, every emit writes to the file and appends
to both buffers exactly the line
`'[' + timestamp + ']' + '::' + ('[' + prefix + ']' + '::' when the prefix
is non-empty) + level tag + '::' + message + newline`; with an empty
prefix, the prefix field, its brackets and its separator are absent. -/
theorem c1_emit_line_format (s : LoggerState) (t1 t2 : PyDateTime)
    (msg m_type : String) (hw : s.write_to_file = true) :
    (pyEcho s t1 t2 msg m_type).events =
      [FileEvent.writeAppend s.log_file_path
        (bareLogString s.pfx s.short_timestamp t1 msg m_type)] ∧
    (pyEcho s t1 t2 msg m_type).state.log_list =
      s.log_list ++ [bareLogString s.pfx s.short_timestamp t1 msg m_type] ∧
    (pyEcho s t1 t2 msg m_type).state.log_list_to_send =
      s.log_list_to_send ++ [bareLogString s.pfx s.short_timestamp t1 msg m_type] ∧
    bareLogString s.pfx s.short_timestamp t1 msg m_type =
      (if s.pfx = "" then
        "[" ++ makeTimestampString s.short_timestamp t1 ++ "]" ++ "::" ++
          m_type ++ "::" ++ msg ++ "\n"
      else
        "[" ++ makeTimestampString s.short_timestamp t1 ++ "]" ++ "::" ++
          "[" ++ s.pfx ++ "]" ++ "::" ++ m_type ++ "::" ++ msg ++ "\n") := by
  refine ⟨?_, ?_, ?_, ?_⟩
  · simp [pyEcho, hw]
  · simp [pyEcho, hw]
  · simp [pyEcho, hw]
  · by_cases hp : s.pfx = ""
    · rw [if_pos hp]
      apply str_ext
      simp [bareLogString, hp, data_append, data_lbrack, data_rbrack_sep,
        data_rbrack, data_sep, data_newline, List.append_assoc]
    · rw [if_neg hp]
      apply str_ext
      simp [bareLogString, hp, data_append, data_lbrack, data_rbrack_sep,
        data_rbrack_sep_lbrack, data_rbrack, data_sep, data_newline,
        List.append_assoc]

/-- Witness for C1 at a concrete state, message and clock reading. -/
theorem c1_emit_line_format_witness :
    (LoggerState.mk true "APP" false "/w/log.txt" [] []).write_to_file = true ∧
    ((pyEcho (LoggerState.mk true "APP" false "/w/log.txt" [] [])
        (PyDateTime.mk 2024 1 1 10 0 0 0) (PyDateTime.mk 2024 1 1 10 0 0 0)
        "disk full" "ERROR").state.log_list =
      [] ++ [bareLogString "APP" false (PyDateTime.mk 2024 1 1 10 0 0 0)
        "disk full" "ERROR"] ∧
      bareLogString "APP" false (PyDateTime.mk 2024 1 1 10 0 0 0)
          "disk full" "ERROR" =
        "[2024-01-01 10:00:00]::[APP]::ERROR::disk full\n") := by
  have h := c1_emit_line_format (LoggerState.mk true "APP" false "/w/log.txt" [] [])
    (PyDateTime.mk 2024 1 1 10 0 0 0) (PyDateTime.mk 2024 1 1 10 0 0 0)
    "disk full" "ERROR" (by decide)
  exact ⟨by decide, h.2.1, by decide⟩

/-- A leveled call: the two clock readings its `_echo` takes, the message,
and which of `log`/`error`/`warn`/`init` was called. -/
def emitOp : PyDateTime × PyDateTime × String × Level → Op
  | (t1, t2, msg, lvl) => Op.emit t1 t2 msg lvl

/-- The formatted line a leveled call produces. -/
def callLine (pfx : String) (short_timestamp : Bool) :
    PyDateTime × PyDateTime × String × Level → String
  | (t1, _, msg, lvl) => bareLogString pfx short_timestamp t1 msg (levelTag lvl)

theorem pendingAfter_emits (pfx : String) (st : Bool)
    (calls : List (PyDateTime × PyDateTime × String × Level)) :
    ∀ p : List String,
      pendingAfter true pfx st p (calls.map emitOp) =
        p ++ calls.map (callLine pfx st) := by
  induction calls with
  | nil =>
    intro p
    simp [pendingAfter]
  | cons c rest ih =>
    intro p
    obtain ⟨t1, t2, msg, lvl⟩ := c
    simp only [List.map_cons, emitOp, pendingAfter, if_pos rfl, callLine]
    rw [ih]
    simp [List.append_assoc]

/-- C2: with `writeToFile=true` and an empty pending buffer (as after
construction or after any flush), running `N` leveled calls and then
`flush_logs(from_start=false)` returns exactly those `N` formatted lines in
call order, and an immediately following `flush_logs(from_start=false)`
returns the empty sequence. -/
theorem c2_flush_returns_batch (s : LoggerState)
    (calls : List (PyDateTime × PyDateTime × String × Level))
    (hw : s.write_to_file = true) (hp : s.log_list_to_send = []) :
    (pyFlush (runOps s (calls.map emitOp)).state false).ret =
      calls.map (callLine s.pfx s.short_timestamp) ∧
    (pyFlush (pyFlush (runOps s (calls.map emitOp)).state false).state false).ret
      = [] := by
  constructor
  · show (runOps s (calls.map emitOp)).state.log_list_to_send = _
    rw [runOps_pending, hw, hp, pendingAfter_emits]
    simp
  · rfl

/-- Witness for C2: two leveled calls, flushed, then flushed again. -/
theorem c2_flush_returns_batch_witness :
    (LoggerState.mk true "" false "/w/log.txt" [] []).write_to_file = true ∧
    (LoggerState.mk true "" false "/w/log.txt" [] []).log_list_to_send = [] ∧
    (pyFlush (runOps (LoggerState.mk true "" false "/w/log.txt" [] [])
        ([(PyDateTime.mk 2024 1 1 10 0 0 0, PyDateTime.mk 2024 1 1 10 0 0 0,
            "a", Level.info),
          (PyDateTime.mk 2024 1 1 10 0 7 0, PyDateTime.mk 2024 1 1 10 0 7 0,
            "b", Level.warn)].map emitOp)).state false).ret =
      ["[2024-01-01 10:00:00]::INFO::a\n", "[2024-01-01 10:00:07]::WARN::b\n"] := by
  have h := c2_flush_returns_batch (LoggerState.mk true "" false "/w/log.txt" [] [])
    [(PyDateTime.mk 2024 1 1 10 0 0 0, PyDateTime.mk 2024 1 1 10 0 0 0,
        "a", Level.info),
      (PyDateTime.mk 2024 1 1 10 0 7 0, PyDateTime.mk 2024 1 1 10 0 7 0,
        "b", Level.warn)] (by decide) (by decide)
  refine ⟨by decide, by decide, ?_⟩
  rw [h.1]
  decide

/-- C3: for every history of emits and flushes, `flush_logs(from_start=true)`
returns the full ordered sequence of all lines ever appended to `allLogs`,
and afterwards `pendingLogs` is empty while `allLogs` still holds the full
history. -/
theorem c3_flush_from_start (cwd : String) (t_path t_header : PyDateTime)
    (write_to_file in_dir session : Bool) (pfx : String) (short_timestamp : Bool)
    (logs_dir_exists : Bool) (ops : List Op) :
    (pyFlush (runOps (pyInit cwd t_path t_header write_to_file in_dir session pfx
        short_timestamp logs_dir_exists).state ops).state true).ret =
      appendedLines write_to_file pfx short_timestamp ops ∧
    (pyFlush (runOps (pyInit cwd t_path t_header write_to_file in_dir session pfx
        short_timestamp logs_dir_exists).state ops).state true).state.log_list_to_send
      = [] ∧
    (pyFlush (runOps (pyInit cwd t_path t_header write_to_file in_dir session pfx
        short_timestamp logs_dir_exists).state ops).state true).state.log_list =
      appendedLines write_to_file pfx short_timestamp ops := by
  have hlog : (runOps (pyInit cwd t_path t_header write_to_file in_dir session pfx
      short_timestamp logs_dir_exists).state ops).state.log_list =
      appendedLines write_to_file pfx short_timestamp ops := by
    rw [runOps_log_list]
    rfl
  exact ⟨hlog, rfl, hlog⟩

/-- C5: in every reachable state, `pendingLogs` holds exactly the lines
appended since the last flush (or since construction when none occurred)
and is a suffix of `allLogs`. -/
theorem c5_pending_suffix (cwd : String) (t_path t_header : PyDateTime)
    (write_to_file in_dir session : Bool) (pfx : String) (short_timestamp : Bool)
    (logs_dir_exists : Bool) (ops : List Op) :
    (runOps (pyInit cwd t_path t_header write_to_file in_dir session pfx
        short_timestamp logs_dir_exists).state ops).state.log_list_to_send =
      pendingAfter write_to_file pfx short_timestamp [] ops ∧
    (runOps (pyInit cwd t_path t_header write_to_file in_dir session pfx
        short_timestamp logs_dir_exists).state ops).state.log_list_to_send <:+
      (runOps (pyInit cwd t_path t_header write_to_file in_dir session pfx
        short_timestamp logs_dir_exists).state ops).state.log_list := by
  constructor
  · rw [runOps_pending]
    rfl
  · exact runOps_suffix ops _ List.nil_suffix

/-- C6: with `writeToFile=false`, construction performs no file event, no
leveled call performs one, both buffers stay empty, and every flush of
either kind returns the empty sequence. -/
theorem c6_no_file_mode (cwd : String) (t_path t_header : PyDateTime)
    (in_dir session : Bool) (pfx : String) (short_timestamp : Bool)
    (logs_dir_exists : Bool) (ops : List Op) :
    (pyInit cwd t_path t_header false in_dir session pfx short_timestamp
        logs_dir_exists).events = [] ∧
    (runOps (pyInit cwd t_path t_header false in_dir session pfx short_timestamp
        logs_dir_exists).state ops).events = [] ∧
    (∀ o ∈ (runOps (pyInit cwd t_path t_header false in_dir session pfx
        short_timestamp logs_dir_exists).state ops).flushed, o = []) ∧
    (runOps (pyInit cwd t_path t_header false in_dir session pfx short_timestamp
        logs_dir_exists).state ops).state.log_list = [] ∧
    (runOps (pyInit cwd t_path t_header false in_dir session pfx short_timestamp
        logs_dir_exists).state ops).state.log_list_to_send = [] := by
  have hrun := runOps_no_file ops (pyInit cwd t_path t_header false in_dir session
    pfx short_timestamp logs_dir_exists).state rfl rfl rfl
  refine ⟨?_, hrun.1, hrun.2.1, hrun.2.2.1, hrun.2.2.2⟩
  simp [pyInit]

theorem applyEvents_append (fs : String → String) (a b : List FileEvent) :
    applyEvents fs (a ++ b) = applyEvents (applyEvents fs a) b := by
  induction a generalizing fs with
  | nil => rfl
  | cons e rest ih => simp [applyEvents, ih]

theorem applyEvents_mkdir_ite (g : String → String) (c : Prop) [Decidable c]
    (q : String) :
    applyEvents g (if c then [FileEvent.mkdirLogs q] else []) = g := by
  split <;> rfl

/-- C4 as stated is false: `_echo` reads the clock once for the file line
(lines 115/117) and again for the console line (lines 139/143), so the two
timestamp fields can differ.  Here the second reading is one second later:
the file line carries `10:00:00`, the console line `10:00:01`. -/
theorem c4_counterexample :
    (pyEcho (LoggerState.mk true "" false "/w/log.txt" [] [])
        (PyDateTime.mk 2024 1 1 10 0 0 0) (PyDateTime.mk 2024 1 1 10 0 1 0)
        "boot" "INFO").state.log_list =
      [bareLogString "" false (PyDateTime.mk 2024 1 1 10 0 0 0) "boot" "INFO"] ∧
    (pyEcho (LoggerState.mk true "" false "/w/log.txt" [] [])
        (PyDateTime.mk 2024 1 1 10 0 0 0) (PyDateTime.mk 2024 1 1 10 0 1 0)
        "boot" "INFO").console =
      consoleMarkupLine (makeTimestampString false (PyDateTime.mk 2024 1 1 10 0 1 0))
        "" (colorCode "INFO") "INFO" "boot" ∧
    consoleTextLine (makeTimestampString false (PyDateTime.mk 2024 1 1 10 0 1 0))
        "" (colorCode "INFO") "INFO" "boot" ++ "\n" ≠
      bareLogString "" false (PyDateTime.mk 2024 1 1 10 0 0 0) "boot" "INFO" := by
  refine ⟨rfl, rfl, ?_⟩
  decide

/-- C4 (amended): when the two clock readings of a single `_echo` call
render to the same timestamp string, the console line with the styling
markup stripped matches the file/buffer line field-for-field (same
timestamp, prefix, level tag, message and `::` separators; the buffer line
additionally carries the trailing newline). -/
theorem c4_console_matches_file (s : LoggerState) (t1 t2 : PyDateTime)
    (msg m_type : String) (hw : s.write_to_file = true)
    (hts : makeTimestampString s.short_timestamp t1 =
      makeTimestampString s.short_timestamp t2) :
    (pyEcho s t1 t2 msg m_type).console =
      consoleMarkupLine (makeTimestampString s.short_timestamp t2) s.pfx
        (colorCode m_type) m_type msg ∧
    consoleTextLine (makeTimestampString s.short_timestamp t2) s.pfx
        (colorCode m_type) m_type msg ++ "\n" =
      bareLogString s.pfx s.short_timestamp t1 msg m_type ∧
    (pyEcho s t1 t2 msg m_type).state.log_list =
      s.log_list ++ [bareLogString s.pfx s.short_timestamp t1 msg m_type] := by
  refine ⟨rfl, ?_, by simp [pyEcho, hw]⟩
  rw [consoleText_eq_bare, ← hts]
  rfl

/-- Witness for the amended C4 at a concrete call whose two clock readings
fall within the same second. -/
theorem c4_console_matches_file_witness :
    (LoggerState.mk true "APP" false "/w/log.txt" [] []).write_to_file = true ∧
    makeTimestampString false (PyDateTime.mk 2024 1 1 10 0 0 100) =
      makeTimestampString false (PyDateTime.mk 2024 1 1 10 0 0 200) ∧
    consoleTextLine (makeTimestampString false (PyDateTime.mk 2024 1 1 10 0 0 200))
        "APP" (colorCode "ERROR") "ERROR" "disk full" ++ "\n" =
      bareLogString "APP" false (PyDateTime.mk 2024 1 1 10 0 0 100)
        "disk full" "ERROR" := by
  refine ⟨by decide, by decide, ?_⟩
  exact (c4_console_matches_file (LoggerState.mk true "APP" false "/w/log.txt" [] [])
    (PyDateTime.mk 2024 1 1 10 0 0 100) (PyDateTime.mk 2024 1 1 10 0 0 200)
    "disk full" "ERROR" (by decide) (by decide)).2.1

/-- C7: on valid clock readings the short timestamp matches `HH:MM` and the
full timestamp matches `YYYY-MM-DD HH:MM:SS` (sub-second part cut); and the
timestamp is taken from the clock reading of each individual call, so calls
whose clock readings render differently produce different lines. -/
theorem c7_timestamp_format (d : PyDateTime) (_h : d.Valid) :
    isHHMM (makeTimestampString true d) = true ∧
    isFullTS (makeTimestampString false d) = true ∧
    (∀ (st : Bool) (pfx msg m_type : String) (d2 : PyDateTime),
      makeTimestampString st d ≠ makeTimestampString st d2 →
      bareLogString pfx st d msg m_type ≠ bareLogString pfx st d2 msg m_type) := by
  refine ⟨isHHMM_short d, isFullTS_full d, ?_⟩
  intro st pfxv msg ty d2 hne heq
  apply hne
  apply str_ext
  have h2 := congrArg String.data heq
  by_cases hp : pfxv = ""
  · simp only [bareLogString, if_pos hp, data_append, data_lbrack, data_rbrack_sep,
      data_sep, data_newline, List.append_assoc, List.cons_append, List.nil_append,
      List.cons.injEq, true_and] at h2
    exact List.append_cancel_right h2
  · simp only [bareLogString, if_neg hp, data_append, data_lbrack,
      data_rbrack_sep_lbrack, data_rbrack_sep, data_sep, data_newline,
      List.append_assoc, List.cons_append, List.nil_append,
      List.cons.injEq, true_and] at h2
    exact List.append_cancel_right h2

/-- Witness for C7 at a concrete valid clock reading. -/
theorem c7_timestamp_format_witness :
    (PyDateTime.mk 2024 1 1 10 0 0 0).Valid ∧
    isHHMM (makeTimestampString true (PyDateTime.mk 2024 1 1 10 0 0 0)) = true ∧
    isFullTS (makeTimestampString false (PyDateTime.mk 2024 1 1 10 0 0 0)) = true := by
  have h := c7_timestamp_format (PyDateTime.mk 2024 1 1 10 0 0 0) (by decide)
  exact ⟨by decide, h.1, h.2.1⟩

/-- C8: a non-session Logger with `writeToFile=true` resolves the fixed
path `cwd ++ [/logs] ++ /log.txt` independently of the clock, its
construction ends with a truncate-write of the dashed header to that path,
and a second construction over the same directory truncates whatever the
file held to just its own header. -/
theorem c8_fixed_path_truncate (cwd : String) (in_dir : Bool)
    (t1 t2 t1' t2' : PyDateTime) (p p' : String) (st st' : Bool)
    (lde lde' : Bool) (fs : String → String) :
    (pyInit cwd t1 t2 true in_dir false p st lde).state.log_file_path =
      cwd ++ (if in_dir then "/logs" else "") ++ "/log.txt" ∧
    (pyInit cwd t1' t2' true in_dir false p' st' lde').state.log_file_path =
      (pyInit cwd t1 t2 true in_dir false p st lde).state.log_file_path ∧
    (pyInit cwd t1 t2 true in_dir false p st lde).events.getLast? =
      some (FileEvent.writeTrunc
        (cwd ++ (if in_dir then "/logs" else "") ++ "/log.txt")
        (headerLine st t2)) ∧
    applyEvents
        (applyEvents fs (pyInit cwd t1 t2 true in_dir false p st lde).events)
        (pyInit cwd t1' t2' true in_dir false p' st' lde').events
        (cwd ++ (if in_dir then "/logs" else "") ++ "/log.txt") =
      headerLine st' t2' := by
  refine ⟨rfl, rfl, ?_, ?_⟩
  · simp only [pyInit]
    split <;> rfl
  · simp only [pyInit]
    rw [applyEvents_append, applyEvents_append, applyEvents_mkdir_ite,
      applyEvents_mkdir_ite]
    simp [applyEvents, applyEvent]

/-- C9: any level tag other than the four known ones is accepted (the call
is an ordinary total operation), styled with the default neutral bold
style, and carried unchanged into the plain-text line of the file and
buffers. -/
theorem c9_unknown_tag (s : LoggerState) (t1 t2 : PyDateTime) (msg m_type : String)
    (h1 : m_type ≠ "INFO") (h2 : m_type ≠ "ERROR") (h3 : m_type ≠ "WARN")
    (h4 : m_type ≠ "INIT") :
    colorCode m_type = "white bold" ∧
    (pyEcho s t1 t2 msg m_type).console =
      consoleMarkupLine (makeTimestampString s.short_timestamp t2) s.pfx
        "white bold" m_type msg ∧
    (pyEcho s t1 t2 msg m_type).state.log_list =
      (if s.write_to_file then
        s.log_list ++ [bareLogString s.pfx s.short_timestamp t1 msg m_type]
      else s.log_list) ∧
    (pyEcho s t1 t2 msg m_type).state.log_list_to_send =
      (if s.write_to_file then
        s.log_list_to_send ++ [bareLogString s.pfx s.short_timestamp t1 msg m_type]
      else s.log_list_to_send) := by
  have hc : colorCode m_type = "white bold" := by
    simp [colorCode, h1, h2, h3, h4]
  refine ⟨hc, ?_, ?_, ?_⟩
  · show consoleMarkupLine _ _ (colorCode m_type) _ _ = _
    rw [hc]
  · simp only [pyEcho]
    split <;> rfl
  · simp only [pyEcho]
    split <;> rfl

/-- Witness for C9 with the tag `DEBUG`. -/
theorem c9_unknown_tag_witness :
    ("DEBUG" : String) ≠ "INFO" ∧ ("DEBUG" : String) ≠ "ERROR" ∧
    ("DEBUG" : String) ≠ "WARN" ∧ ("DEBUG" : String) ≠ "INIT" ∧
    colorCode "DEBUG" = "white bold" := by
  refine ⟨by decide, by decide, by decide, by decide, ?_⟩
  exact (c9_unknown_tag (LoggerState.mk true "" false "/w/log.txt" [] [])
    (PyDateTime.mk 2024 1 1 10 0 0 0) (PyDateTime.mk 2024 1 1 10 0 0 0) "m" "DEBUG"
    (by decide) (by decide) (by decide) (by decide)).1

/-- C10: the dashed header written at construction never enters `allLogs`
or `pendingLogs`, so no flush of either kind ever returns it: every line a
flush returns is the formatted line of some leveled call. -/
theorem c10_header_never_flushed (cwd : String) (t_path t_header : PyDateTime)
    (in_dir session : Bool) (pfx : String) (short_timestamp : Bool)
    (logs_dir_exists : Bool) (ops : List Op) :
    headerLine short_timestamp t_header ∉
      (runOps (pyInit cwd t_path t_header true in_dir session pfx short_timestamp
        logs_dir_exists).state ops).state.log_list ∧
    headerLine short_timestamp t_header ∉
      (runOps (pyInit cwd t_path t_header true in_dir session pfx short_timestamp
        logs_dir_exists).state ops).state.log_list_to_send ∧
    (∀ o ∈ (runOps (pyInit cwd t_path t_header true in_dir session pfx
        short_timestamp logs_dir_exists).state ops).flushed,
      headerLine short_timestamp t_header ∉ o) ∧
    (∀ o ∈ (runOps (pyInit cwd t_path t_header true in_dir session pfx
        short_timestamp logs_dir_exists).state ops).flushed,
      ∀ x ∈ o, IsEmitLine pfx short_timestamp x) := by
  obtain ⟨ha, hb, hc⟩ := runOps_emit_lines pfx short_timestamp ops
    (pyInit cwd t_path t_header true in_dir session pfx short_timestamp
      logs_dir_exists).state rfl rfl
    (fun x hx => absurd hx (List.not_mem_nil x))
    (fun x hx => absurd hx (List.not_mem_nil x))
  have hne : ∀ x, IsEmitLine pfx short_timestamp x →
      headerLine short_timestamp t_header ≠ x := by
    rintro x ⟨t, m, lvl, rfl⟩
    exact header_ne_bare _ _ _ _ _ _ _
  refine ⟨fun hmem => hne _ (ha _ hmem) rfl, fun hmem => hne _ (hb _ hmem) rfl,
    ?_, hc⟩
  intro o ho hmem
  exact hne _ (hc o ho _ hmem) rfl

end Openlog
